import Mathlib

/-!
Verification of `tasklog.py`, a command-line tool that appends task records
to a CSV store and answers natural-language questions about them through a
local Ollama inference endpoint.

The embedding below is a shallow model of the script:

* the file system state is `FS := Option CsvContent` — `none` means the
  store file `tasklog.csv` does not exist; `some c` is a file with a header
  row and data rows;
* Python floats (the `hours` field) are modelled as rationals `ℚ`; the
  exact round trip `float(str(x)) == x` guaranteed by Python is realised by
  the pair `ratRepr` / `parseRat` below, together with a parser for the
  decimal digits written by `str`;
* the clock (`datetime.datetime.now()`) is an explicit `DateTime`
  parameter, serialised by `DateTime.isoformat`;
* the network (`requests.post` + `raise_for_status` + `.json()`) is an
  oracle `net : OllamaRequest → OllamaOutcome` whose outcome constructors
  correspond one-to-one to the `except` clauses of
  `query_tasks_with_ollama`; a decoded JSON body is modelled as the
  association list of its string fields, per the wire protocol;
* `print` calls are collected into an output list, `sys.exit(1)` and the
  normal return are an explicit exit code, and an uncaught Python
  exception (the `ValueError` from `float` in `read_tasks`) is the
  `Except.error` case of the run, which terminates the process with a
  non-zero status.
-/

namespace Tasklog

/-- Decimal digit character: `digitChar d` is the character for digit `d`. -/
def digitChar (d : Nat) : Char := Char.ofNat (48 + d)

/-- Numeric value of a decimal digit character, `none` on non-digits. -/
def digitVal (c : Char) : Option Nat :=
  if 48 ≤ c.toNat ∧ c.toNat ≤ 57 then some (c.toNat - 48) else none

/-- Fuel-indexed most-significant-digit-first decimal digits of a natural
number; the fuel is always instantiated at `n + 1`, which suffices. -/
def natReprAux : Nat → Nat → List Char
  | 0, _ => []
  | fuel + 1, n =>
    if n < 10 then [digitChar n]
    else natReprAux fuel (n / 10) ++ [digitChar (n % 10)]

/-- Decimal digits of a natural number (model of Python `str` on a
non-negative integer). -/
def natReprL (n : Nat) : List Char := natReprAux (n + 1) n

/-- Left-to-right accumulator pass of the decimal-number reader. -/
def parseNatAux : List Char → Nat → Option Nat
  | [], acc => some acc
  | c :: cs, acc =>
    match digitVal c with
    | some d => parseNatAux cs (acc * 10 + d)
    | none => none

/-- Read a nonempty all-digit character list as a natural number. -/
def parseNatL (l : List Char) : Option Nat :=
  if l = [] then none else parseNatAux l 0

/-- Decimal digits of an integer, with a leading minus sign when negative
(model of Python `str` on an integer). -/
def intReprL (i : Int) : List Char :=
  if i < 0 then '-' :: natReprL i.natAbs else natReprL i.toNat

/-- Read an optionally minus-signed digit list as an integer. -/
def parseIntL (l : List Char) : Option Int :=
  if l.head? = some '-' then (parseNatL l.tail).map (fun n => -(Int.ofNat n))
  else (parseNatL l).map (fun n => Int.ofNat n)

/-- Model of Python `str` on the `hours` value. Python floats round-trip
exactly through `str`/`float`; the model realises such an exact injective
rendering of the rational `hours` value: the numerator, and the
denominator after a solidus when it is not `1`. -/
def ratRepr (q : ℚ) : String :=
  if q.den = 1 then ⟨intReprL q.num⟩
  else ⟨intReprL q.num ++ '/' :: natReprL q.den⟩

/-- Model of Python `float` applied to a stored text field: the exact
inverse of `ratRepr` on its image, and `none` on text that does not denote
a number (e.g. `"abc"`), where Python raises `ValueError`. -/
def parseRat (s : String) : Option ℚ :=
  match s.data.dropWhile (fun c => c != '/') with
  | [] => (parseIntL s.data).map (fun n => (n : ℚ))
  | _ :: denPart =>
    match parseIntL (s.data.takeWhile (fun c => c != '/')), parseNatL denPart with
    | some n, some d => some ((n : ℚ) / (d : ℚ))
    | _, _ => none

/-- Gregorian leap-year test, as in `datetime`. -/
def isLeapYear (y : Nat) : Bool := (y % 4 == 0 && y % 100 != 0) || y % 400 == 0

/-- Number of days in month `m` of year `y`, as in `datetime`. -/
def daysInMonth (y m : Nat) : Nat :=
  if m = 2 then (if isLeapYear y then 29 else 28)
  else if m = 4 ∨ m = 6 ∨ m = 9 ∨ m = 11 then 30
  else 31

/-- Model of `datetime.date.fromisoformat`: accepts exactly the strings
`YYYY-MM-DD` that denote a real calendar date (year at least 1, month
1–12, day within the month, leap years included), returning its fields;
`none` models the `ValueError` raised on anything else. -/
def fromisoformat? (s : String) : Option (Nat × Nat × Nat) :=
  match s.data with
  | [y1, y2, y3, y4, s1, m1, m2, s2, d1, d2] =>
    match s1, s2, digitVal y1, digitVal y2, digitVal y3, digitVal y4,
        digitVal m1, digitVal m2, digitVal d1, digitVal d2 with
    | '-', '-', some a, some b, some c, some e, some f, some g, some h, some i =>
      let y := 1000 * a + 100 * b + 10 * c + e
      let m := 10 * f + g
      let d := 10 * h + i
      if 1 ≤ y ∧ 1 ≤ m ∧ m ≤ 12 ∧ 1 ≤ d ∧ d ≤ daysInMonth y m then some (y, m, d)
      else none
    | _, _, _, _, _, _, _, _, _, _ => none
  | _ => none

/-- A date string passes validation when `fromisoformat` accepts it. -/
def validDate (s : String) : Bool := (fromisoformat? s).isSome

/-- A wall-clock instant, as produced by `datetime.datetime.now()`. -/
structure DateTime where
  year : Nat
  month : Nat
  day : Nat
  hour : Nat
  minute : Nat
  second : Nat
  microsecond : Nat
deriving DecidableEq

/-- Two-digit zero-padded field of an ISO timestamp. -/
def pad2 (n : Nat) : String :=
  (if n < 10 then "0" else "") ++ (⟨natReprL n⟩ : String)

/-- Four-digit zero-padded year of an ISO timestamp. -/
def pad4 (n : Nat) : String :=
  (if n < 10 then "000" else if n < 100 then "00" else if n < 1000 then "0" else "")
    ++ (⟨natReprL n⟩ : String)

/-- Six-digit zero-padded microsecond field of an ISO timestamp. -/
def pad6 (n : Nat) : String :=
  ⟨List.replicate (6 - (natReprL n).length) '0' ++ natReprL n⟩

/-- Model of `datetime.datetime.isoformat()`:
`YYYY-MM-DDTHH:MM:SS[.ffffff]`, the fractional part present exactly when
the microsecond is nonzero. -/
def DateTime.isoformat (t : DateTime) : String :=
  pad4 t.year ++ "-" ++ pad2 t.month ++ "-" ++ pad2 t.day ++ "T"
    ++ pad2 t.hour ++ ":" ++ pad2 t.minute ++ ":" ++ pad2 t.second
    ++ (if t.microsecond = 0 then "" else "." ++ pad6 t.microsecond)

/-- Constant `CSV_FILE` of the script. -/
def CSV_FILE : String := "tasklog.csv"

/-- Constant `CSV_HEADERS` of the script: the four-field header row. -/
def CSV_HEADERS : List String := ["timestamp", "date", "task", "hours"]

/-- Constant `OLLAMA_API_URL` of the script. -/
def OLLAMA_API_URL : String := "http://localhost:11434/api/generate"

/-- Constant `DEFAULT_MODEL` of the script. -/
def DEFAULT_MODEL : String := "llama3"

/-- One data row of the store file, all four fields as stored text. -/
structure Row where
  timestamp : String
  date : String
  task : String
  hours : String
deriving DecidableEq

/-- Contents of an existing store file: the header row and the data rows,
in order. -/
structure CsvContent where
  header : List String
  rows : List Row
deriving DecidableEq

/-- The file-system state relevant to the script: the store file's
contents, or `none` when the file does not exist. -/
abbrev FS := Option CsvContent

/-- One task record as returned by `read_tasks` (a row dictionary with the
`hours` field converted to a number). -/
structure Task where
  timestamp : String
  date : String
  task : String
  hours : ℚ
deriving DecidableEq, Inhabited

/-- The uncaught `ValueError` raised by `float` on an unparseable stored
field. -/
inductive FormatError where
  | badField (value : String)
deriving DecidableEq

/-- `ensure_csv_exists`: creates the file with the header row when it does
not exist. The model returns the store contents after the call. -/
def ensure_csv_exists : FS → CsvContent
  | none => ⟨CSV_HEADERS, []⟩
  | some c => c

/-- Conversion of one stored row into a task record: `row['hours'] =
float(row['hours'])`, which raises on unparseable text. -/
def rowToTask (r : Row) : Except FormatError Task :=
  match parseRat r.hours with
  | some h => .ok ⟨r.timestamp, r.date, r.task, h⟩
  | none => .error (.badField r.hours)

/-- The row loop of `read_tasks`: converts rows in order, the first
unparseable row aborting the read. -/
def readRows : List Row → Except FormatError (List Task)
  | [] => .ok []
  | r :: rs =>
    match rowToTask r with
    | .error e => .error e
    | .ok t =>
      match readRows rs with
      | .error e => .error e
      | .ok ts => .ok (t :: ts)

/-- `read_tasks`: ensures the store exists, then reads every data row in
order, converting the `hours` field. Returns the read result together with
the file-system state after the call (the file now exists). -/
def read_tasks (fs : FS) : Except FormatError (List Task) × FS :=
  let c := ensure_csv_exists fs
  (readRows c.rows, some c)

/-- `add_task`: ensures the store exists, appends one row stamped with the
current instant, and prints a confirmation. Returns the new file-system
state and the printed lines. -/
def add_task (task date : String) (hours : ℚ) (now : DateTime) (fs : FS) :
    FS × List String :=
  let c := ensure_csv_exists fs
  (some ⟨c.header, c.rows ++ [⟨now.isoformat, date, task, ratRepr hours⟩]⟩,
   ["Task added: \x27" ++ task ++ "\x27 on " ++ date ++ " (" ++ ratRepr hours ++ " hours)"])

/-- One line of the task enumeration inside the prompt:
`"{i}. Date: {date}, Hours: {hours}, Task: {task}\n"`. -/
def taskLine (i : Nat) (t : Task) : String :=
  (⟨natReprL i⟩ : String) ++ ". Date: " ++ t.date ++ ", Hours: " ++ ratRepr t.hours
    ++ ", Task: " ++ t.task ++ "\n"

/-- The `enumerate(tasks, 1)` loop building the task list block. -/
def tasksDataAux : Nat → List Task → String
  | _, [] => ""
  | i, t :: ts => taskLine i t ++ tasksDataAux (i + 1) ts

/-- The `tasks_data` block: the fixed heading followed by the 1-indexed
enumeration of every task. -/
def tasks_data (tasks : List Task) : String := "Task data:\n" ++ tasksDataAux 1 tasks

/-- The fixed instructional preamble of the prompt (the text of the
f-string before the task data). -/
def PROMPT_PREAMBLE : String :=
  "\nYou are a helpful assistant analyzing task log data. Please answer the following question based on the task data provided.\n\n"

/-- The fixed closing instruction of the prompt (the text of the f-string
after the question). -/
def PROMPT_CLOSING : String :=
  "\n\nPlease provide a clear and concise answer based only on the task data provided.\n"

/-- The prompt sent to Ollama, exactly as assembled by the f-string in
`query_tasks_with_ollama`. -/
def buildPrompt (question : String) (tasks : List Task) : String :=
  PROMPT_PREAMBLE ++ tasks_data tasks ++ "\n\nQuestion: " ++ question ++ PROMPT_CLOSING

/-- One HTTP POST request to the inference service: the target URL and the
JSON payload `{model, prompt, stream}`. -/
structure OllamaRequest where
  url : String
  model : String
  prompt : String
  stream : Bool
deriving DecidableEq

/-- Outcome of the guarded network exchange of `query_tasks_with_ollama`,
one constructor per `except` clause plus success: `requests.post` raises
`ConnectionError`; it or `raise_for_status` raises some other
`RequestException` (with its message); `response.json()` raises
`JSONDecodeError` on a malformed body; or the body decodes to a JSON
object, modelled as the association list of its string fields. -/
inductive OllamaOutcome where
  | connectionError
  | requestException (cause : String)
  | invalidJson
  | ok (body : List (String × String))

/-- `query_tasks_with_ollama`: builds the prompt, posts the payload once,
and maps every failure of the exchange to a descriptive answer string
instead of raising. Returns the answer and the list of requests issued. -/
def query_tasks_with_ollama (question : String) (tasks : List Task) (model : String)
    (net : OllamaRequest → OllamaOutcome) : String × List OllamaRequest :=
  let prompt := buildPrompt question tasks
  let payload : OllamaRequest := ⟨OLLAMA_API_URL, model, prompt, false⟩
  let answer :=
    match net payload with
    | .ok body =>
      match body.lookup "response" with
      | some r => r
      | none => "No response received from Ollama."
    | .connectionError =>
      "Error: Could not connect to Ollama. Make sure Ollama is running (ollama serve)."
    | .requestException cause => "Error communicating with Ollama: " ++ cause
    | .invalidJson => "Error: Received invalid response from Ollama."
  (answer, [payload])

/-- Result of one completed command run: the printed lines, the requests
issued to the inference service, and the final file-system state. -/
structure RunOut where
  output : List String
  requests : List OllamaRequest
  fs : FS

/-- `query_tasks`: reads all tasks (which may raise a format error that
propagates), reports when there are none without touching the network, and
otherwise queries Ollama and prints its answer. -/
def query_tasks (question : String) (model : String)
    (net : OllamaRequest → OllamaOutcome) (fs : FS) : Except FormatError RunOut :=
  match read_tasks fs with
  | (.error e, _) => .error e
  | (.ok tasks, fs') =>
    if tasks = [] then
      .ok ⟨["No tasks found in the log."], [], fs'⟩
    else
      let (response, reqs) := query_tasks_with_ollama question tasks model net
      .ok ⟨["Querying tasks using Ollama model \x27" ++ model ++ "\x27...",
            "Question: " ++ question ++ "\n",
            "\nOllama Response:",
            response], reqs, fs'⟩

/-- A parsed command line, as produced by `argparse` (a malformed command
line never reaches `main`; `argparse` exits by itself). -/
inductive Command where
  | add (task : String) (date : String) (hours : ℚ)
  | query (question : String) (model : String)

/-- `validate_args`: for `add`, checks the date format first and then the
sign of the hours, printing one error on failure; every other command
passes unchecked. Returns the verdict and the printed lines. -/
def validate_args : Command → Bool × List String
  | .add _ date hours =>
    if !validDate date then
      (false, ["Error: Invalid date format. Please use YYYY-MM-DD format."])
    else if hours < 0 then
      (false, ["Error: Hours must be a non-negative number."])
    else (true, [])
  | .query _ _ => (true, [])

/-- Result of one process run: exit code, printed lines, requests issued,
final file-system state. -/
structure MainOut where
  exit : Nat
  output : List String
  requests : List OllamaRequest
  fs : FS

/-- `main`: dispatches on the parsed command. No command prints usage and
exits 1; failed validation prints the error and exits 1; otherwise the
selected operation runs and the process exits 0 — unless the operation
raises (the format error of `read_tasks`), which ends the process with a
traceback and a non-zero status, modelled by `Except.error`. The usage
text itself is elided (no claim concerns it). -/
def main (cmd : Option Command) (now : DateTime)
    (net : OllamaRequest → OllamaOutcome) (fs : FS) : Except FormatError MainOut :=
  match cmd with
  | none => .ok ⟨1, ["usage"], [], fs⟩
  | some c =>
    match validate_args c with
    | (false, msgs) => .ok ⟨1, msgs, [], fs⟩
    | (true, _) =>
      match c with
      | .add task date hours =>
        let (fs', out) := add_task task date hours now fs
        .ok ⟨0, out, [], fs'⟩
      | .query question model =>
        (query_tasks question model net fs).map fun r => ⟨0, r.output, r.requests, r.fs⟩

/-- Exit status of a run: an uncaught exception terminates the Python
process with status 1. -/
def exitCode (r : Except FormatError MainOut) : Nat :=
  match r with
  | .error _ => 1
  | .ok o => o.exit

/-- A sample wall-clock instant used in concrete runs. -/
def sampleNow : DateTime := ⟨2024, 1, 15, 10, 30, 0, 0⟩

/-- A stored row whose `hours` field does not denote a number. -/
def badRow : Row := ⟨"2024-01-01T09:00:00", "2024-01-01", "demo", "abc"⟩

/-- A stored row whose `hours` field denotes the number 4. -/
def goodRow : Row := ⟨"2024-01-01T09:00:00", "2024-01-01", "demo", "4"⟩

/-- A store containing one row with an unparseable `hours` field. -/
def badHoursStore : FS := some ⟨CSV_HEADERS, [badRow]⟩

/-- A store containing the header row and no records. -/
def emptyStore : FS := some ⟨CSV_HEADERS, []⟩

/-!
Round-trip facts about the decimal rendering and reading of numbers,
needed to relate `add_task` (which writes `ratRepr hours`) with
`read_tasks` (which reads the field back through `parseRat`).
-/

/-- Reading back the character of a digit below ten yields the digit. -/
theorem digitVal_digitChar {d : Nat} (h : d < 10) : digitVal (digitChar d) = some d := by
  interval_cases d <;> decide

/-- The digit list of a natural number is never empty. -/
theorem natReprAux_ne_nil (fuel n : Nat) : natReprAux (fuel + 1) n ≠ [] := by
  rw [natReprAux]
  split
  · simp
  · simp

/-- Every character in a digit list is the character of a digit below ten. -/
theorem mem_natReprAux : ∀ fuel n c, c ∈ natReprAux fuel n → ∃ d, d < 10 ∧ c = digitChar d := by
  intro fuel
  induction fuel with
  | zero => intro n c h; simp [natReprAux] at h
  | succ f ih =>
    intro n c h
    rw [natReprAux] at h
    split at h
    · next hn => simp only [List.mem_singleton] at h; exact ⟨n, hn, h⟩
    · next hn =>
      rw [List.mem_append] at h
      rcases h with h | h
      · exact ih _ _ h
      · simp only [List.mem_singleton] at h
        exact ⟨n % 10, Nat.mod_lt _ (by omega), h⟩

/-- The digit reader distributes over list concatenation. -/
theorem parseNatAux_append :
    ∀ xs ys : List Char, ∀ acc,
      parseNatAux (xs ++ ys) acc = (parseNatAux xs acc).bind (fun a => parseNatAux ys a) := by
  intro xs
  induction xs with
  | nil => intro ys acc; rfl
  | cons c cs ih =>
    intro ys acc
    simp only [List.cons_append, parseNatAux]
    cases h : digitVal c with
    | some d => exact ih ys (acc * 10 + d)
    | none => rfl

/-- Reading the digit list of `n` starting from accumulator `acc` yields
`acc` shifted past the digits, plus `n`. -/
theorem parseNatAux_natReprAux :
    ∀ fuel n acc, n ≤ fuel →
      parseNatAux (natReprAux (fuel + 1) n) acc =
        some (acc * 10 ^ (natReprAux (fuel + 1) n).length + n) := by
  intro fuel
  induction fuel with
  | zero =>
    intro n acc hn
    have hn0 : n = 0 := Nat.le_zero.mp hn
    subst hn0
    simp [natReprAux, parseNatAux, show digitVal (digitChar 0) = some 0 from by decide]
  | succ f ih =>
    intro n acc hn
    rw [natReprAux]
    split
    · next h10 =>
      simp [parseNatAux, digitVal_digitChar h10]
    · next h10 =>
      push_neg at h10
      have hdiv : n / 10 ≤ f := by
        have := Nat.div_lt_self (by omega : 0 < n) (by omega : 1 < 10)
        omega
      rw [parseNatAux_append, ih (n / 10) acc hdiv]
      have hm : n % 10 < 10 := Nat.mod_lt _ (by omega)
      simp only [Option.some_bind, parseNatAux, digitVal_digitChar hm]
      have hlen : (natReprAux (f + 1) (n / 10) ++ [digitChar (n % 10)]).length
          = (natReprAux (f + 1) (n / 10)).length + 1 := by simp
      rw [hlen, pow_succ, ← mul_assoc]
      congr 1
      generalize acc * 10 ^ (natReprAux (f + 1) (n / 10)).length = x
      omega

/-- Reading back the digit list of a natural number yields the number. -/
theorem parseNatL_natReprL (n : Nat) : parseNatL (natReprL n) = some n := by
  unfold parseNatL natReprL
  rw [if_neg (natReprAux_ne_nil n n), parseNatAux_natReprAux n n 0 (le_refl n)]
  simp

/-- The minus sign is not a digit character. -/
theorem digitChar_ne_dash {d : Nat} (h : d < 10) : digitChar d ≠ '-' := by
  intro he
  have h1 := digitVal_digitChar h
  have h2 : digitVal '-' = none := by decide
  rw [he, h2] at h1
  exact Option.noConfusion h1

/-- The solidus is not a digit character. -/
theorem digitChar_ne_slash {d : Nat} (h : d < 10) : digitChar d ≠ '/' := by
  intro he
  have h1 := digitVal_digitChar h
  have h2 : digitVal '/' = none := by decide
  rw [he, h2] at h1
  exact Option.noConfusion h1

/-- The digit list of a natural number never starts with a minus sign. -/
theorem head_natReprL_ne_dash (n : Nat) : (natReprL n).head? ≠ some '-' := by
  intro h
  have hne : natReprL n ≠ [] := natReprAux_ne_nil n n
  have hm : '-' ∈ natReprL n := by
    cases hl : natReprL n with
    | nil => exact absurd hl hne
    | cons a l =>
      rw [hl] at h
      simp only [List.head?_cons, Option.some.injEq] at h
      subst h
      exact List.mem_cons_self _ _
  obtain ⟨d, hd, heq⟩ := mem_natReprAux _ _ _ hm
  exact digitChar_ne_dash hd heq.symm

/-- The solidus does not occur in the digit list of a natural number. -/
theorem slash_not_mem_natReprL (n : Nat) : '/' ∉ natReprL n := by
  intro hm
  obtain ⟨d, hd, heq⟩ := mem_natReprAux _ _ _ hm
  exact digitChar_ne_slash hd heq.symm

/-- Reading back the rendering of an integer yields the integer. -/
theorem parseIntL_intReprL (i : Int) : parseIntL (intReprL i) = some i := by
  unfold intReprL
  split
  · next hneg =>
    unfold parseIntL
    split
    · next hc =>
      rw [List.tail_cons, parseNatL_natReprL]
      show some (-(Int.ofNat i.natAbs)) = some i
      congr 1
      rw [Int.ofNat_eq_natCast]
      omega
    · next hc => exact absurd rfl hc
  · next hpos =>
    unfold parseIntL
    split
    · next hc => exact absurd hc (head_natReprL_ne_dash _)
    · next hc =>
      rw [parseNatL_natReprL]
      show some (Int.ofNat i.toNat) = some i
      congr 1
      rw [Int.ofNat_eq_natCast]
      omega

/-- The solidus does not occur in the rendering of an integer. -/
theorem slash_not_mem_intReprL (i : Int) : '/' ∉ intReprL i := by
  unfold intReprL
  split
  · intro hm
    rcases List.mem_cons.mp hm with h | h
    · exact absurd h.symm (by decide)
    · exact slash_not_mem_natReprL _ h
  · exact slash_not_mem_natReprL _

/-- Lists whose elements all satisfy the predicate are dropped whole. -/
theorem dropWhile_eq_nil_of_all {α : Type} (p : α → Bool) :
    ∀ xs : List α, (∀ x ∈ xs, p x = true) → xs.dropWhile p = [] := by
  intro xs
  induction xs with
  | nil => intro _; rfl
  | cons a l ih =>
    intro h
    rw [List.dropWhile_cons, h a (List.mem_cons_self a l)]
    exact ih (fun x hx => h x (List.mem_cons_of_mem a hx))

/-- Taking while the predicate holds stops exactly at the first failing
element. -/
theorem takeWhile_append_cons {α : Type} (p : α → Bool) (y : α) (ys : List α) :
    ∀ xs : List α, (∀ x ∈ xs, p x = true) → p y = false →
      (xs ++ y :: ys).takeWhile p = xs := by
  intro xs
  induction xs with
  | nil => intro _ hy; simp [List.takeWhile_cons, hy]
  | cons a l ih =>
    intro h hy
    rw [List.cons_append, List.takeWhile_cons, h a (List.mem_cons_self a l)]
    show a :: List.takeWhile p (l ++ y :: ys) = a :: l
    rw [ih (fun x hx => h x (List.mem_cons_of_mem a hx)) hy]

/-- Dropping while the predicate holds stops exactly at the first failing
element. -/
theorem dropWhile_append_cons {α : Type} (p : α → Bool) (y : α) (ys : List α) :
    ∀ xs : List α, (∀ x ∈ xs, p x = true) → p y = false →
      (xs ++ y :: ys).dropWhile p = y :: ys := by
  intro xs
  induction xs with
  | nil => intro _ hy; simp [List.dropWhile_cons, hy]
  | cons a l ih =>
    intro h hy
    rw [List.cons_append, List.dropWhile_cons, h a (List.mem_cons_self a l)]
    exact ih (fun x hx => h x (List.mem_cons_of_mem a hx)) hy

/-- Every character of the integer rendering passes the not-a-solidus
test. -/
theorem intReprL_no_slash (i : Int) :
    ∀ c ∈ intReprL i, (c != '/') = true := by
  intro c hc
  have : c ≠ '/' := by
    intro he
    subst he
    exact slash_not_mem_intReprL i hc
  simpa using this

/-- Reading back the rendering of a rational yields the rational: the
store's round trip for the `hours` field. -/
theorem parseRat_ratRepr (q : ℚ) : parseRat (ratRepr q) = some q := by
  unfold ratRepr
  split
  · next hden =>
    show parseRat ⟨intReprL q.num⟩ = some q
    unfold parseRat
    rw [show (String.mk (intReprL q.num)).data = intReprL q.num from rfl]
    rw [dropWhile_eq_nil_of_all _ _ (intReprL_no_slash q.num)]
    rw [parseIntL_intReprL]
    have hq : ((q.num : ℚ)) = q := by
      have h1 : ((q.num : ℚ) / ((q.den : Nat) : ℚ)) = q := Rat.num_div_den q
      rw [hden] at h1
      simpa using h1
    simp [hq]
  · next hden =>
    show parseRat ⟨intReprL q.num ++ '/' :: natReprL q.den⟩ = some q
    unfold parseRat
    rw [show (String.mk (intReprL q.num ++ '/' :: natReprL q.den)).data
        = intReprL q.num ++ '/' :: natReprL q.den from rfl]
    rw [dropWhile_append_cons _ _ _ _ (intReprL_no_slash q.num) (by decide)]
    rw [takeWhile_append_cons _ _ _ _ (intReprL_no_slash q.num) (by decide)]
    rw [parseIntL_intReprL]
    simp [parseNatL_natReprL, Rat.num_div_den]

/-- The rendering of a natural number has at least one character. -/
theorem length_natReprL_pos (n : Nat) : 0 < (⟨natReprL n⟩ : String).length := by
  show 0 < (natReprL n).length
  exact List.length_pos.mpr (natReprAux_ne_nil n n)

/-- An ISO timestamp is never the empty string. -/
theorem isoformat_ne_empty (t : DateTime) : t.isoformat ≠ "" := by
  intro h
  have hlen : (DateTime.isoformat t).length = 0 := by rw [h]; rfl
  rw [DateTime.isoformat] at hlen
  simp only [String.length_append] at hlen
  have h4 : 0 < (pad4 t.year).length := by
    rw [pad4, String.length_append]
    have := length_natReprL_pos t.year
    omega
  omega

/-- Appending one readable row to a readable row list extends the read
result by the corresponding task. -/
theorem readRows_append_ok {rs : List Row} {l : List Task} (r : Row) {t : Task}
    (h : readRows rs = .ok l) (ht : rowToTask r = .ok t) :
    readRows (rs ++ [r]) = .ok (l ++ [t]) := by
  induction rs generalizing l with
  | nil =>
    rw [readRows] at h
    cases h
    simp [readRows, ht]
  | cons a as ih =>
    rw [readRows] at h
    rw [List.cons_append, readRows]
    cases ha : rowToTask a with
    | error e => rw [ha] at h; exact absurd h (by simp)
    | ok t0 =>
      rw [ha] at h
      cases hrec : readRows as with
      | error e => rw [hrec] at h; exact absurd h (by simp)
      | ok ts =>
        rw [hrec] at h
        cases h
        rw [ih hrec]
        rfl

/-- A row whose `hours` field does not denote a number makes the whole
read fail. -/
theorem readRows_error_of_mem {rs : List Row} {r : Row}
    (hm : r ∈ rs) (hr : parseRat r.hours = none) :
    ∃ e, readRows rs = .error e := by
  induction rs with
  | nil => exact absurd hm (List.not_mem_nil r)
  | cons a as ih =>
    rw [readRows]
    cases ha : rowToTask a with
    | error e => exact ⟨e, rfl⟩
    | ok t =>
      rcases List.mem_cons.mp hm with h | h
      · subst h
        rw [rowToTask, hr] at ha
        exact absurd ha (by simp)
      · obtain ⟨e, he⟩ := ih h
        rw [he]
        exact ⟨e, rfl⟩

/-- When every row's `hours` field denotes a number, the read succeeds and
returns one task per row, in order, with the fields carried over. -/
theorem readRows_ok_of_all {rs : List Row}
    (h : ∀ r ∈ rs, parseRat r.hours ≠ none) :
    ∃ l, readRows rs = .ok l ∧
      List.Forall₂ (fun (r : Row) (t : Task) => rowToTask r = .ok t) rs l := by
  induction rs with
  | nil => exact ⟨[], rfl, List.Forall₂.nil⟩
  | cons a as ih =>
    have ha : parseRat a.hours ≠ none := h a (List.mem_cons_self a as)
    obtain ⟨q, hq⟩ := Option.ne_none_iff_exists'.mp ha
    obtain ⟨l, hl, hf⟩ := ih (fun r hr => h r (List.mem_cons_of_mem a hr))
    refine ⟨⟨a.timestamp, a.date, a.task, q⟩ :: l, ?_, ?_⟩
    · rw [readRows, rowToTask, hq, hl]
    · exact List.Forall₂.cons (by rw [rowToTask, hq]) hf

/-- The enumeration loop renders, for every index `i` below the length,
the record at position `i` on the line numbered `j + i`. -/
theorem tasksDataAux_eq (ts : List Task) :
    ∀ j, tasksDataAux j ts =
      List.foldr (fun a b => a ++ b) ""
        ((List.range ts.length).map fun i => taskLine (j + i) (ts.getD i default)) := by
  induction ts with
  | nil => intro j; rfl
  | cons t l ih =>
    intro j
    rw [tasksDataAux, ih (j + 1)]
    rw [List.length_cons, List.range_succ_eq_map, List.map_cons, List.map_map]
    rw [List.foldr_cons]
    have hfun : ((fun i => taskLine (j + i) ((t :: l).getD i default)) ∘ Nat.succ)
        = fun i => taskLine (j + 1 + i) (l.getD i default) := by
      funext i
      simp only [Function.comp_apply, Nat.succ_eq_add_one, List.getD_cons_succ]
      have h2 : j + (i + 1) = j + 1 + i := by omega
      rw [h2]
    rw [hfun]
    simp

/-!
The claims.
-/

/-- Claim C1: for every prompt and model name, the guarded exchange of
`query_tasks_with_ollama` never raises — it is a total function into
answer strings — and maps each failure of the exchange to its message: a
connection failure to the fixed service-not-running text, any other
transport failure to the communication-error text carrying the underlying
cause, a malformed response body to the invalid-response text, and a
successful request whose decoded body lacks the `response` field to the
fixed no-response placeholder. -/
theorem ask_maps_every_failure_to_message (question : String) (tasks : List Task)
    (model : String) :
    (query_tasks_with_ollama question tasks model (fun _ => .connectionError)).1 =
      "Error: Could not connect to Ollama. Make sure Ollama is running (ollama serve)." ∧
    (∀ cause, (query_tasks_with_ollama question tasks model
        (fun _ => .requestException cause)).1 =
      "Error communicating with Ollama: " ++ cause) ∧
    (query_tasks_with_ollama question tasks model (fun _ => .invalidJson)).1 =
      "Error: Received invalid response from Ollama." ∧
    (∀ body, List.lookup "response" body = none →
      (query_tasks_with_ollama question tasks model (fun _ => .ok body)).1 =
        "No response received from Ollama.") := by
  refine ⟨rfl, fun cause => rfl, rfl, fun body hb => ?_⟩
  show (match List.lookup "response" body with
    | some r => r
    | none => "No response received from Ollama.") = "No response received from Ollama."
  rw [hb]

/-- Witness for C1 at concrete inputs: a decoded body without the
`response` field yields the placeholder. -/
theorem ask_maps_every_failure_to_message_witness :
    List.lookup "response" ([("model", "llama3")] : List (String × String)) = none ∧
    (query_tasks_with_ollama "How many hours?" [] "llama3"
      (fun _ => .ok [("model", "llama3")])).1 = "No response received from Ollama." :=
  ⟨rfl, (ask_maps_every_failure_to_message "How many hours?" [] "llama3").2.2.2
    [("model", "llama3")] rfl⟩

/-- Claim C2 (amended): a query invocation exits 0 for every store whose
rows all parse, regardless of any inference-service failure; on a store
with an unparseable `hours` field the read raises and the process exits
with a non-zero status instead (see the counterexample). -/
theorem query_exit_zero_on_parseable_store (question model : String) (now : DateTime)
    (net : OllamaRequest → OllamaOutcome) (fs : FS) (l : List Task)
    (h : (read_tasks fs).1 = .ok l) :
    exitCode (main (some (.query question model)) now net fs) = 0 := by
  have h2 : readRows (ensure_csv_exists fs).rows = .ok l := h
  have hrt : read_tasks fs = (.ok l, some (ensure_csv_exists fs)) := by
    show (readRows (ensure_csv_exists fs).rows, some (ensure_csv_exists fs)) = _
    rw [h2]
  have hq : ∃ o, query_tasks question model net fs = .ok o := by
    unfold query_tasks
    rw [hrt]
    rcases l with _ | ⟨a, as⟩
    · exact ⟨_, rfl⟩
    · exact ⟨_, rfl⟩
  obtain ⟨o, ho⟩ := hq
  simp [main, validate_args, ho, exitCode, Except.map]

/-- Claim C2, counterexample to the claim as stated: on a store whose
single row has the unparseable hours field "abc", the query run ends with
the uncaught format error and exit status 1, not 0. -/
theorem query_exit_nonzero_on_unparseable_store :
    exitCode (main (some (.query "How many hours?" "llama3")) sampleNow
      (fun _ => .ok []) badHoursStore) = 1 := rfl

/-- Witness for the amended C2 at concrete inputs: on the absent store the
query run exits 0 even though the service refuses the connection. -/
theorem query_exit_zero_on_parseable_store_witness :
    (read_tasks (none : FS)).1 = .ok [] ∧
    exitCode (main (some (.query "How many hours?" "llama3")) sampleNow
      (fun _ => .connectionError) none) = 0 :=
  ⟨rfl, query_exit_zero_on_parseable_store "How many hours?" "llama3" sampleNow
    (fun _ => .connectionError) none [] rfl⟩

/-- Claim C3: an add invocation whose hours are negative or whose date is
not a well-formed calendar date leaves the store untouched (no write and
no file creation: the final file-system state is the initial one), prints
one validation error, and exits 1. -/
theorem invalid_add_leaves_store_unchanged (task date : String) (hours : ℚ)
    (now : DateTime) (net : OllamaRequest → OllamaOutcome) (fs : FS)
    (h : validDate date = false ∨ hours < 0) :
    ∃ msg, main (some (.add task date hours)) now net fs = .ok ⟨1, [msg], [], fs⟩ ∧
      (msg = "Error: Invalid date format. Please use YYYY-MM-DD format." ∨
       msg = "Error: Hours must be a non-negative number.") := by
  by_cases hd : validDate date
  · have hh : hours < 0 := h.resolve_left (by simp [hd])
    refine ⟨"Error: Hours must be a non-negative number.", ?_, Or.inr rfl⟩
    simp [main, validate_args, hd, hh]
  · have hd2 : validDate date = false := by simpa using hd
    refine ⟨"Error: Invalid date format. Please use YYYY-MM-DD format.", ?_, Or.inl rfl⟩
    simp [main, validate_args, hd2]

/-- Witness for C3 at concrete inputs: month 13 is rejected and the
absent store stays absent. -/
theorem invalid_add_leaves_store_unchanged_witness :
    (validDate "2024-13-01" = false ∨ (1 : ℚ) < 0) ∧
    (∃ msg, main (some (.add "demo" "2024-13-01" 1)) sampleNow
        (fun _ => .ok []) none = .ok ⟨1, [msg], [], none⟩ ∧
      (msg = "Error: Invalid date format. Please use YYYY-MM-DD format." ∨
       msg = "Error: Hours must be a non-negative number.")) :=
  ⟨Or.inl (by decide),
   invalid_add_leaves_store_unchanged "demo" "2024-13-01" 1 sampleNow
     (fun _ => .ok []) none (Or.inl (by decide))⟩

/-- Claim C4: for every valid triple (description, well-formed date,
hours at least 0), an add invocation succeeds (exit 0) and a subsequent
read returns the previous records unchanged, in order, followed by exactly
one new record carrying that date, description and hours together with a
newly assigned non-empty creation timestamp. -/
theorem add_then_read_appends_record (task date : String) (hours : ℚ) (now : DateTime)
    (net : OllamaRequest → OllamaOutcome) (fs : FS) (l : List Task)
    (hd : validDate date = true) (hh : 0 ≤ hours) (hread : (read_tasks fs).1 = .ok l) :
    ∃ o, main (some (.add task date hours)) now net fs = .ok o ∧ o.exit = 0 ∧
      (read_tasks o.fs).1 = .ok (l ++ [⟨now.isoformat, date, task, hours⟩]) ∧
      now.isoformat ≠ "" := by
  have hnl : ¬ hours < 0 := not_lt.mpr hh
  have h2 : readRows (ensure_csv_exists fs).rows = .ok l := hread
  have hrow : rowToTask ⟨now.isoformat, date, task, ratRepr hours⟩ =
      .ok ⟨now.isoformat, date, task, hours⟩ := by
    rw [rowToTask]
    simp [parseRat_ratRepr]
  have hmain : main (some (.add task date hours)) now net fs =
      .ok ⟨0, (add_task task date hours now fs).2, [],
        (add_task task date hours now fs).1⟩ := by
    simp [main, validate_args, hd, hnl]
  refine ⟨_, hmain, rfl, ?_, isoformat_ne_empty now⟩
  show (read_tasks (add_task task date hours now fs).1).1 = _
  show readRows ((ensure_csv_exists fs).rows
    ++ [⟨now.isoformat, date, task, ratRepr hours⟩]) = _
  exact readRows_append_ok _ h2 hrow

/-- Witness for C4 at concrete inputs: adding "Write report" on
2024-01-15 with 4 hours to the absent store. -/
theorem add_then_read_appends_record_witness :
    (validDate "2024-01-15" = true ∧ (0 : ℚ) ≤ 4 ∧ (read_tasks (none : FS)).1 = .ok []) ∧
    (∃ o, main (some (.add "Write report" "2024-01-15" 4)) sampleNow
        (fun _ => .ok []) none = .ok o ∧ o.exit = 0 ∧
      (read_tasks o.fs).1 =
        .ok ([] ++ [⟨sampleNow.isoformat, "2024-01-15", "Write report", 4⟩]) ∧
      sampleNow.isoformat ≠ "") :=
  ⟨⟨by decide, by decide, rfl⟩,
   add_then_read_appends_record "Write report" "2024-01-15" 4 sampleNow
     (fun _ => .ok []) none [] (by decide) (by decide) rfl⟩

/-- Claim C5: the prompt is one text block made of the fixed preamble, a
1-indexed enumeration rendering, for every index `i` below the number of
records, the record at position `i` whole on the line numbered `i + 1`
(so record N appears at enumeration position N, none omitted or
truncated), then the literal question, then the fixed closing
instruction. -/
theorem prompt_enumerates_every_record (tasks : List Task) (question : String) :
    buildPrompt question tasks =
      PROMPT_PREAMBLE
        ++ ("Task data:
"
          ++ List.foldr (fun a b => a ++ b) ""
            ((List.range tasks.length).map fun i => taskLine (i + 1) (tasks.getD i default)))
        ++ "

Question: " ++ question ++ PROMPT_CLOSING := by
  rw [buildPrompt, tasks_data, tasksDataAux_eq tasks 1]
  have hfun : (fun i => taskLine (1 + i) (tasks.getD i default))
      = fun i => taskLine (i + 1) (tasks.getD i default) := by
    funext i
    rw [Nat.add_comm]
  rw [hfun]

/-- Claim C6: a query invocation over a store holding no records prints
the fixed no-tasks message, exits 0, and issues no request at all to the
inference endpoint. -/
theorem empty_store_query_makes_no_request (question model : String) (now : DateTime)
    (net : OllamaRequest → OllamaOutcome) (fs : FS)
    (h : (read_tasks fs).1 = .ok []) :
    ∃ o, main (some (.query question model)) now net fs = .ok o ∧
      o.requests = [] ∧ o.output = ["No tasks found in the log."] ∧ o.exit = 0 := by
  have h2 : readRows (ensure_csv_exists fs).rows = .ok [] := h
  have hrt : read_tasks fs = (.ok [], some (ensure_csv_exists fs)) := by
    show (readRows (ensure_csv_exists fs).rows, some (ensure_csv_exists fs)) = _
    rw [h2]
  have hq : query_tasks question model net fs =
      .ok ⟨["No tasks found in the log."], [], some (ensure_csv_exists fs)⟩ := by
    unfold query_tasks
    rw [hrt]
    rfl
  refine ⟨⟨0, ["No tasks found in the log."], [], some (ensure_csv_exists fs)⟩, ?_, rfl, rfl, rfl⟩
  simp [main, validate_args, hq, Except.map]

/-- Witness for C6 at concrete inputs: the header-only store triggers the
message and an empty request trace. -/
theorem empty_store_query_makes_no_request_witness :
    (read_tasks emptyStore).1 = .ok [] ∧
    (∃ o, main (some (.query "How many hours?" "llama3")) sampleNow
        (fun _ => .ok [("response", "hi")]) emptyStore = .ok o ∧
      o.requests = [] ∧ o.output = ["No tasks found in the log."] ∧ o.exit = 0) :=
  ⟨rfl, empty_store_query_makes_no_request "How many hours?" "llama3" sampleNow
    (fun _ => .ok [("response", "hi")]) emptyStore rfl⟩

/-- Claim C7: reading the non-existent store returns the empty record
sequence and leaves behind a store file holding exactly the four-field
header row and nothing else. -/
theorem read_tasks_creates_header_only_store :
    read_tasks none = (.ok [], some ⟨CSV_HEADERS, []⟩) ∧ CSV_HEADERS.length = 4 :=
  ⟨rfl, rfl⟩

/-- Claim C8: a stored row whose hours field does not parse as a number
makes the read fail with a format error that propagates, while a store
whose rows all parse is read in full, in order, each row contributing one
record with the hours field converted. -/
theorem read_tasks_parses_all_or_fails :
    (∀ (c : CsvContent) (r : Row), r ∈ c.rows → parseRat r.hours = none →
      ∃ e, (read_tasks (some c)).1 = .error e) ∧
    (∀ c : CsvContent, (∀ r ∈ c.rows, parseRat r.hours ≠ none) →
      ∃ l, (read_tasks (some c)).1 = .ok l ∧
        List.Forall₂ (fun (r : Row) (t : Task) => rowToTask r = .ok t) c.rows l) := by
  constructor
  · intro c r hm hr
    exact readRows_error_of_mem hm hr
  · intro c hall
    exact readRows_ok_of_all hall

/-- Witness for C8 at concrete inputs: the store with the "abc" row fails
to read; the store with the "4" row reads in full. -/
theorem read_tasks_parses_all_or_fails_witness :
    (badRow ∈ (CsvContent.mk CSV_HEADERS [badRow]).rows ∧ parseRat badRow.hours = none ∧
      ∃ e, (read_tasks (some ⟨CSV_HEADERS, [badRow]⟩)).1 = .error e) ∧
    ((∀ r ∈ (CsvContent.mk CSV_HEADERS [goodRow]).rows, parseRat r.hours ≠ none) ∧
      ∃ l, (read_tasks (some ⟨CSV_HEADERS, [goodRow]⟩)).1 = .ok l ∧
        List.Forall₂ (fun (r : Row) (t : Task) => rowToTask r = .ok t)
          (CsvContent.mk CSV_HEADERS [goodRow]).rows l) :=
  ⟨⟨List.mem_cons_self _ _, rfl,
    read_tasks_parses_all_or_fails.1 ⟨CSV_HEADERS, [badRow]⟩ badRow
      (List.mem_cons_self _ _) rfl⟩,
   ⟨fun r hr => by
      simp only [List.mem_singleton] at hr
      subst hr
      decide,
    read_tasks_parses_all_or_fails.2 ⟨CSV_HEADERS, [goodRow]⟩ (fun r hr => by
      simp only [List.mem_singleton] at hr
      subst hr
      decide)⟩⟩

/-- Claim C9: the prompt is a pure function of the record sequence and
the question alone: every run issues exactly the request carrying
`buildPrompt question tasks`, so two runs that agree on records and
question produce byte-identical prompts whatever the model name or the
network does. -/
theorem prompt_deterministic (tasks : List Task) (question : String)
    (model1 model2 : String) (net1 net2 : OllamaRequest → OllamaOutcome) :
    ((query_tasks_with_ollama question tasks model1 net1).2.map OllamaRequest.prompt =
      [buildPrompt question tasks]) ∧
    ((query_tasks_with_ollama question tasks model2 net2).2.map OllamaRequest.prompt =
      (query_tasks_with_ollama question tasks model1 net1).2.map OllamaRequest.prompt) :=
  ⟨rfl, rfl⟩

/-- Claim C10: validation checks nothing outside the add command: every
query invocation passes `validate_args` with no output, so a query can
never fail validation. -/
theorem validate_args_passes_query (question model : String) :
    validate_args (.query question model) = (true, []) := rfl

end Tasklog
